import Mathlib

/-!
Shallow embedding of the flood-warnings time-series core
(`src/database.py`, `src/storage.py`, `src/main.py`) in Lean 4.

Modelling conventions:
* Python `datetime` objects are the structure `PyDateTime`; an aware datetime
  carries `tz = some (neg, hh, mm)` (a fixed UTC offset), a naive one `tz = none`.
* `datetime.fromisoformat` is modelled by `fromisoformatChars`, a parser for the
  canonical ISO-8601 forms the system produces and consumes
  (`YYYY-MM-DD[{T, }HH:MM[:SS[.ffffff]][±HH:MM]]`); `datetime.isoformat` by
  `isoformat`.  Parse failure (Python `ValueError`) is `none`.
* Python string comparison is code-point lexicographic; it is modelled by
  `lexLe` / `lexLt` on `List Char`.
* `list.sort` is a stable sort; it is modelled by `List.insertionSort`, which is
  also stable, and any two stable sorts of the same key agree elementwise.
* `statistics.mean` followed by `round` (round-half-to-even) is modelled exactly
  over the rationals by integer arithmetic in `pyRoundMean` (the float detour
  taken by `statistics.mean` is modelled as exact rational arithmetic).
* A raised exception escaping a function is `none` / an error value; a function
  that catches every exception and returns a value is total.
-/

namespace Flood

/-! ### Python datetime model -/

/-- A Python `datetime` value: date and time fields plus an optional fixed
UTC offset (`none` = naive). The offset is `(neg, hours, minutes)`. -/
structure PyDateTime where
  year : Nat
  month : Nat
  day : Nat
  hour : Nat
  minute : Nat
  second : Nat
  microsecond : Nat
  tz : Option (Bool × Nat × Nat)
deriving DecidableEq, Repr

/-- True in a Gregorian leap year, as Python `calendar.isleap`. -/
def isLeapYear (y : Nat) : Bool :=
  y % 4 == 0 && (y % 100 != 0 || y % 400 == 0)

/-- Number of days of month `m` of year `y` (Python `calendar.monthrange`). -/
def daysInMonth (y m : Nat) : Nat :=
  if m = 2 then (if isLeapYear y then 29 else 28)
  else if m = 4 ∨ m = 6 ∨ m = 9 ∨ m = 11 then 30
  else 31

/-- Field ranges accepted by Python `datetime` (`MINYEAR = 1`, `MAXYEAR = 9999`). -/
def PyDateTime.validB (dt : PyDateTime) : Bool :=
  decide (1 ≤ dt.year) && decide (dt.year ≤ 9999) &&
  decide (1 ≤ dt.month) && decide (dt.month ≤ 12) &&
  decide (1 ≤ dt.day) && decide (dt.day ≤ daysInMonth dt.year dt.month) &&
  decide (dt.hour ≤ 23) && decide (dt.minute ≤ 59) && decide (dt.second ≤ 59) &&
  decide (dt.microsecond ≤ 999999) &&
  (match dt.tz with
   | none => true
   | some (_, h, m) => decide (h ≤ 23) && decide (m ≤ 59))

/-! ### Decimal digits, printing -/

/-- The decimal digit character for `n < 10`. -/
def digitChar (n : Nat) : Char := Char.ofNat (48 + n)

/-- Two-digit zero-padded decimal representation (`"%02d"`), for `n ≤ 99`. -/
def pad2 (n : Nat) : List Char := [digitChar (n / 10), digitChar (n % 10)]

/-- Four-digit zero-padded decimal representation (`"%04d"`), for `n ≤ 9999`. -/
def pad4 (n : Nat) : List Char :=
  [digitChar (n / 1000), digitChar (n / 100 % 10), digitChar (n / 10 % 10), digitChar (n % 10)]

/-- Six-digit zero-padded decimal representation (`"%06d"`), for `n ≤ 999999`. -/
def pad6 (n : Nat) : List Char :=
  [digitChar (n / 100000), digitChar (n / 10000 % 10), digitChar (n / 1000 % 10),
   digitChar (n / 100 % 10), digitChar (n / 10 % 10), digitChar (n % 10)]

/-- The fractional-seconds part of `datetime.isoformat`: empty when the
microsecond field is zero, else `.ffffff`. -/
def fracChars (micro : Nat) : List Char :=
  if micro = 0 then [] else '.' :: pad6 micro

/-- The UTC-offset suffix of `datetime.isoformat`: empty for a naive value,
else `±HH:MM`. -/
def tzChars : Option (Bool × Nat × Nat) → List Char
  | none => []
  | some (neg, h, m) => (if neg then '-' else '+') :: (pad2 h ++ ':' :: pad2 m)

/-- Python `datetime.isoformat()` (timespec `auto`), as a character list. -/
def isoformatChars (dt : PyDateTime) : List Char :=
  pad4 dt.year ++ '-' :: pad2 dt.month ++ '-' :: pad2 dt.day ++
  'T' :: pad2 dt.hour ++ ':' :: pad2 dt.minute ++ ':' :: pad2 dt.second ++
  fracChars dt.microsecond ++ tzChars dt.tz

/-- Python `datetime.isoformat()` as a `String`. -/
def isoformat (dt : PyDateTime) : String := ⟨isoformatChars dt⟩

/-! ### Parsing (`datetime.fromisoformat`) -/

/-- Numeric value of two decimal digit characters. -/
def d2val (c1 c2 : Char) : Nat := 10 * (c1.toNat - 48) + (c2.toNat - 48)

/-- Parse exactly two decimal digits. -/
def parse2 : List Char → Option (Nat × List Char)
  | c1 :: c2 :: rest =>
    if c1.isDigit && c2.isDigit then some (d2val c1 c2, rest) else none
  | _ => none

/-- Parse exactly four decimal digits. -/
def parse4 : List Char → Option (Nat × List Char)
  | c1 :: c2 :: c3 :: c4 :: rest =>
    if c1.isDigit && c2.isDigit && c3.isDigit && c4.isDigit then
      some (100 * d2val c1 c2 + d2val c3 c4, rest)
    else none
  | _ => none

/-- Consume one expected character. -/
def expect (c : Char) : List Char → Option (List Char)
  | c0 :: rest => if c0 = c then some rest else none
  | _ => none

/-- Numeric value of a list of decimal digit characters (most significant first). -/
def digitsVal (l : List Char) : Nat := l.foldl (fun a c => 10 * a + (c.toNat - 48)) 0

/-- Parse one to six fractional-second digits into microseconds. -/
def parseMicro (l : List Char) : Option (Nat × List Char) :=
  let ds := l.takeWhile (fun c => c.isDigit)
  let rest := l.dropWhile (fun c => c.isDigit)
  if 1 ≤ ds.length ∧ ds.length ≤ 6 then
    some (digitsVal ds * 10 ^ (6 - ds.length), rest)
  else none

/-- Parse the optional `:SS[.ffffff]` tail of a time, returning
`(second, microsecond, rest)`; absent parts default to `0`. -/
def parseSecFrac : List Char → Option (Nat × Nat × List Char)
  | ':' :: l =>
    (match parse2 l with
     | none => none
     | some (s, l1) =>
       match l1 with
       | '.' :: l2 =>
         (match parseMicro l2 with
          | none => none
          | some (micro, l3) => some (s, micro, l3))
       | _ => some (s, 0, l1))
  | l => some (0, 0, l)

/-- Parse the optional trailing UTC offset `±HH:MM`; the input must then end. -/
def parseTzEnd : List Char → Option (Option (Bool × Nat × Nat))
  | [] => some none
  | c :: l =>
    if c = '+' ∨ c = '-' then
      match parse2 l with
      | none => none
      | some (h, l1) =>
        match expect ':' l1 with
        | none => none
        | some l2 =>
          match parse2 l2 with
          | none => none
          | some (m, l3) =>
            match l3 with
            | [] => some (some (decide (c = '-'), h, m))
            | _ => none
    else none

/-- Range-check a parsed datetime, as Python `datetime.__new__` does. -/
def checkValid (dt : PyDateTime) : Option PyDateTime :=
  if dt.validB then some dt else none

/-- Parse the time-of-day part `HH:MM[:SS[.ffffff]][±HH:MM]`. -/
def parseTimePart (y mo d : Nat) (l : List Char) : Option PyDateTime :=
  match parse2 l with
  | none => none
  | some (h, l1) =>
    match expect ':' l1 with
    | none => none
    | some l2 =>
      match parse2 l2 with
      | none => none
      | some (mi, l3) =>
        match parseSecFrac l3 with
        | none => none
        | some (s, micro, l4) =>
          match parseTzEnd l4 with
          | none => none
          | some tz => checkValid ⟨y, mo, d, h, mi, s, micro, tz⟩

/-- Python `datetime.fromisoformat` on the canonical forms
`YYYY-MM-DD[{T, }HH:MM[:SS[.ffffff]][±HH:MM]]`; `none` models the raised
`ValueError` on any other input. -/
def fromisoformatChars (l : List Char) : Option PyDateTime :=
  match parse4 l with
  | none => none
  | some (y, l1) =>
    match expect '-' l1 with
    | none => none
    | some l2 =>
      match parse2 l2 with
      | none => none
      | some (mo, l3) =>
        match expect '-' l3 with
        | none => none
        | some l4 =>
          match parse2 l4 with
          | none => none
          | some (d, l5) =>
            match l5 with
            | [] => checkValid ⟨y, mo, d, 0, 0, 0, 0, none⟩
            | sep :: l6 =>
              if sep = 'T' ∨ sep = ' ' then parseTimePart y mo d l6 else none

/-- `datetime.fromisoformat` on a `String`. -/
def fromisoformat (s : String) : Option PyDateTime := fromisoformatChars s.data

/-! ### The timestamp normalizer (`database._normalize_timestamp`) -/

/-- The `dt.replace(minute=(minute // 15) * 15, second=0, microsecond=0)` step
of `database._normalize_timestamp`. -/
def normDT (dt : PyDateTime) : PyDateTime :=
  { dt with minute := dt.minute / 15 * 15, second := 0, microsecond := 0 }

/-- `database._normalize_timestamp`: parse, snap the minute down to a multiple
of 15, zero seconds and microseconds, re-serialize.  `none` models the re-raised
parse error. -/
def normalizeTimestamp (s : String) : Option String :=
  (fromisoformat s).map (fun dt => isoformat (normDT dt))

/-! ### Printer and parser round-trip lemmas -/

theorem toNat_digitChar (n : Nat) (h : n < 10) : (digitChar n).toNat = 48 + n := by
  interval_cases n <;> decide

theorem isDigit_digitChar (n : Nat) (h : n < 10) : (digitChar n).isDigit = true := by
  interval_cases n <;> decide

theorem parse2_pad2 (n : Nat) (h : n ≤ 99) (r : List Char) :
    parse2 (pad2 n ++ r) = some (n, r) := by
  have h1 : n / 10 < 10 := by omega
  have h2 : n % 10 < 10 := by omega
  simp only [pad2, List.cons_append, List.nil_append, parse2,
    isDigit_digitChar _ h1, isDigit_digitChar _ h2, Bool.and_self, if_true, d2val,
    toNat_digitChar _ h1, toNat_digitChar _ h2, Option.some.injEq, Prod.mk.injEq]
  exact ⟨by omega, trivial⟩

theorem parse4_pad4 (n : Nat) (h : n ≤ 9999) (r : List Char) :
    parse4 (pad4 n ++ r) = some (n, r) := by
  have h1 : n / 1000 < 10 := by omega
  have h2 : n / 100 % 10 < 10 := by omega
  have h3 : n / 10 % 10 < 10 := by omega
  have h4 : n % 10 < 10 := by omega
  simp only [pad4, List.cons_append, List.nil_append, parse4,
    isDigit_digitChar _ h1, isDigit_digitChar _ h2, isDigit_digitChar _ h3,
    isDigit_digitChar _ h4, Bool.and_self, if_true, d2val,
    toNat_digitChar _ h1, toNat_digitChar _ h2, toNat_digitChar _ h3,
    toNat_digitChar _ h4, Option.some.injEq, Prod.mk.injEq]
  exact ⟨by omega, trivial⟩

theorem expect_cons (c : Char) (r : List Char) : expect c (c :: r) = some r := by
  simp [expect]

theorem parse2_pad2_nil (n : Nat) (h : n ≤ 99) : parse2 (pad2 n) = some (n, []) := by
  have h0 := parse2_pad2 n h []
  simpa using h0

theorem digitsVal_pad6 (n : Nat) (h : n ≤ 999999) : digitsVal (pad6 n) = n := by
  have h1 : n / 100000 < 10 := by omega
  simp only [pad6, digitsVal, List.foldl_cons, List.foldl_nil,
    toNat_digitChar _ h1, toNat_digitChar _ (Nat.mod_lt _ (by omega))]
  omega

/-- The rest after the fractional-second digits never starts with another
digit (it is a UTC-offset suffix or nothing). -/
def headNotDigit : List Char → Prop
  | [] => True
  | c :: _ => c.isDigit = false

theorem headNotDigit_tzChars (tz : Option (Bool × Nat × Nat)) :
    headNotDigit (tzChars tz) := by
  rcases tz with _ | ⟨neg, h, m⟩
  · trivial
  · cases neg <;> simp [tzChars, headNotDigit]

theorem takeWhile_digits_pad6 (n : Nat) (h : n ≤ 999999) (r : List Char)
    (hr : headNotDigit r) :
    (pad6 n ++ r).takeWhile (fun c => c.isDigit) = pad6 n ∧
      (pad6 n ++ r).dropWhile (fun c => c.isDigit) = r := by
  have htake : r.takeWhile (fun c => c.isDigit) = [] := by
    cases r with
    | nil => rfl
    | cons c r0 => simp only [headNotDigit] at hr; simp [List.takeWhile, hr]
  have hdrop : r.dropWhile (fun c => c.isDigit) = r := by
    cases r with
    | nil => rfl
    | cons c r0 => simp only [headNotDigit] at hr; simp [List.dropWhile, hr]
  have h1 : n / 100000 < 10 := by omega
  have hd : ∀ k, k < 10 → (digitChar k).isDigit = true := isDigit_digitChar
  constructor <;>
    simp only [pad6, List.cons_append, List.nil_append, List.takeWhile_cons,
      List.dropWhile_cons,
      hd _ h1, hd _ (by omega : n / 10000 % 10 < 10), hd _ (by omega : n / 1000 % 10 < 10),
      hd _ (by omega : n / 100 % 10 < 10), hd _ (by omega : n / 10 % 10 < 10),
      hd _ (by omega : n % 10 < 10), if_true, htake, hdrop, List.append_nil]

theorem parseMicro_pad6 (n : Nat) (h : n ≤ 999999) (r : List Char)
    (hr : headNotDigit r) : parseMicro (pad6 n ++ r) = some (n, r) := by
  obtain ⟨htake, hdrop⟩ := takeWhile_digits_pad6 n h r hr
  unfold parseMicro
  rw [htake, hdrop]
  dsimp only
  have hlen : (pad6 n).length = 6 := rfl
  rw [hlen, if_pos (by omega)]
  simp [digitsVal_pad6 n h]

theorem parseSecFrac_print (s micro : Nat) (hs : s ≤ 99) (hm : micro ≤ 999999)
    (tz : Option (Bool × Nat × Nat)) :
    parseSecFrac (':' :: (pad2 s ++ (fracChars micro ++ tzChars tz))) =
      some (s, micro, tzChars tz) := by
  by_cases h0 : micro = 0
  · subst h0
    simp only [fracChars, if_true, List.nil_append]
    rw [parseSecFrac, parse2_pad2 s hs]
    rcases tz with _ | ⟨neg, hh, mm⟩
    · rfl
    · cases neg <;> rfl
  · simp only [fracChars, if_neg h0, List.cons_append]
    rw [parseSecFrac]
    simp only [parse2_pad2 s hs, parseMicro_pad6 micro hm _ (headNotDigit_tzChars tz)]

theorem parseTzEnd_print (tz : Option (Bool × Nat × Nat))
    (h : match tz with
         | none => True
         | some (_, hh, mm) => hh ≤ 23 ∧ mm ≤ 59) :
    parseTzEnd (tzChars tz) = some tz := by
  rcases tz with _ | ⟨neg, hh, mm⟩
  · rfl
  · obtain ⟨hh1, hm1⟩ := h
    cases neg <;>
      simp [tzChars, parseTzEnd, parse2_pad2 hh (by omega : hh ≤ 99), expect_cons,
        parse2_pad2_nil mm (by omega : mm ≤ 99)]

theorem daysInMonth_le (y m : Nat) : daysInMonth y m ≤ 31 := by
  unfold daysInMonth
  split
  · split <;> omega
  · split <;> omega

/-- Unpacked form of `PyDateTime.validB`. -/
theorem validB_iff (dt : PyDateTime) :
    dt.validB = true ↔
      (1 ≤ dt.year ∧ dt.year ≤ 9999 ∧ 1 ≤ dt.month ∧ dt.month ≤ 12 ∧
       1 ≤ dt.day ∧ dt.day ≤ daysInMonth dt.year dt.month ∧
       dt.hour ≤ 23 ∧ dt.minute ≤ 59 ∧ dt.second ≤ 59 ∧ dt.microsecond ≤ 999999 ∧
       (match dt.tz with
        | none => True
        | some (_, hh, mm) => hh ≤ 23 ∧ mm ≤ 59)) := by
  simp only [PyDateTime.validB, Bool.and_eq_true, decide_eq_true_eq]
  rcases dt.tz with _ | ⟨neg, hh, mm⟩ <;>
    simp only [Bool.and_eq_true, decide_eq_true_eq] <;> tauto

/-- Round trip: re-parsing the canonical serialization of any in-range
datetime recovers it exactly. -/
theorem fromiso_isoformat (dt : PyDateTime) (h : dt.validB = true) :
    fromisoformatChars (isoformatChars dt) = some dt := by
  obtain ⟨h1, h2, h3, h4, h5, h6, h7, h8, h9, h10, htz⟩ := (validB_iff dt).mp h
  have hday : dt.day ≤ 99 := le_trans h6 (le_trans (daysInMonth_le _ _) (by omega))
  unfold isoformatChars fromisoformatChars
  simp only [List.append_assoc, List.cons_append]
  simp only [parse4_pad4 dt.year (by omega : dt.year ≤ 9999), expect_cons,
    parse2_pad2 dt.month (by omega : dt.month ≤ 99), parse2_pad2 dt.day hday]
  rw [if_pos (Or.inl (trivial : True))]
  unfold parseTimePart
  simp only [parse2_pad2 dt.hour (by omega : dt.hour ≤ 99), expect_cons,
    parse2_pad2 dt.minute (by omega : dt.minute ≤ 99),
    parseSecFrac_print dt.second dt.microsecond (by omega) h10 dt.tz,
    parseTzEnd_print dt.tz htz]
  simp [checkValid, h]

theorem checkValid_some {dt dt' : PyDateTime} (h : checkValid dt = some dt') :
    dt' = dt ∧ dt.validB = true := by
  unfold checkValid at h
  by_cases hv : dt.validB = true
  · rw [if_pos hv] at h
    injection h with h2
    exact ⟨h2.symm, hv⟩
  · rw [if_neg hv] at h
    exact Option.noConfusion h

theorem parseTimePart_valid {y mo d : Nat} {l : List Char} {dt : PyDateTime}
    (h : parseTimePart y mo d l = some dt) : dt.validB = true := by
  unfold parseTimePart at h
  repeat' split at h
  all_goals first
    | exact Option.noConfusion h
    | (rw [(checkValid_some h).1]; exact (checkValid_some h).2)

/-- Every datetime produced by the parser satisfies the range checks. -/
theorem fromiso_valid {l : List Char} {dt : PyDateTime}
    (h : fromisoformatChars l = some dt) : dt.validB = true := by
  unfold fromisoformatChars at h
  repeat' split at h
  all_goals first
    | exact Option.noConfusion h
    | exact parseTimePart_valid h
    | (rw [(checkValid_some h).1]; exact (checkValid_some h).2)

/-- Normalization preserves validity: the snapped minute is still in range. -/
theorem validB_normDT {dt : PyDateTime} (h : dt.validB = true) :
    (normDT dt).validB = true := by
  rw [validB_iff] at h
  rw [validB_iff]
  obtain ⟨h1, h2, h3, h4, h5, h6, h7, h8, h9, h10, htz⟩ := h
  simp only [normDT]
  exact ⟨h1, h2, h3, h4, h5, h6, h7, by omega, by omega, by omega, htz⟩

/-- Snapping the minute down to a multiple of 15 twice equals doing it once. -/
theorem normDT_idem (dt : PyDateTime) : normDT (normDT dt) = normDT dt := by
  have hm : dt.minute / 15 * 15 / 15 * 15 = dt.minute / 15 * 15 := by omega
  simp [normDT, hm]

/-! ### Claims about the normalizer -/

/-- C5: `_normalize_timestamp` snaps the minute to the largest multiple of 15
below it (`[0,15) → 0`, `[15,30) → 15`, `[30,45) → 30`, `[45,60) → 45`), zeroes
seconds and microseconds, leaves date, hour and timezone-naivety unchanged, and
propagates the parse error on malformed input. -/
theorem spec_C5_normalize :
    (∀ (s : String) (dt : PyDateTime), fromisoformat s = some dt →
      normalizeTimestamp s = some (isoformat (normDT dt)) ∧
      (normDT dt).minute = dt.minute / 15 * 15 ∧
      (dt.minute < 15 → (normDT dt).minute = 0) ∧
      (15 ≤ dt.minute → dt.minute < 30 → (normDT dt).minute = 15) ∧
      (30 ≤ dt.minute → dt.minute < 45 → (normDT dt).minute = 30) ∧
      (45 ≤ dt.minute → dt.minute < 60 → (normDT dt).minute = 45) ∧
      (normDT dt).second = 0 ∧ (normDT dt).microsecond = 0 ∧
      (normDT dt).year = dt.year ∧ (normDT dt).month = dt.month ∧
      (normDT dt).day = dt.day ∧ (normDT dt).hour = dt.hour ∧
      (normDT dt).tz = dt.tz) ∧
    (∀ s : String, fromisoformat s = none → normalizeTimestamp s = none) := by
  constructor
  · intro s dt h
    refine ⟨by simp [normalizeTimestamp, h], rfl, ?_, ?_, ?_, ?_,
      rfl, rfl, rfl, rfl, rfl, rfl, rfl⟩
    · intro ha; simp only [normDT]; omega
    · intro ha hb; simp only [normDT]; omega
    · intro ha hb; simp only [normDT]; omega
    · intro ha hb; simp only [normDT]; omega
  · intro s h
    unfold normalizeTimestamp
    rw [h]
    rfl

/-- Witness for C5 at a concrete well-formed and a concrete malformed input. -/
theorem spec_C5_normalize_witness :
    normalizeTimestamp "2024-06-01T12:37:45.123456" = some "2024-06-01T12:30:00" ∧
    normalizeTimestamp "garbage" = none := by
  have h1 := (spec_C5_normalize.1 "2024-06-01T12:37:45.123456"
    ⟨2024, 6, 1, 12, 37, 45, 123456, none⟩ (by decide)).1
  have h2 := spec_C5_normalize.2 "garbage" (by decide)
  exact ⟨h1.trans (by decide), h2⟩

/-- C6: normalizing is idempotent — re-normalizing any output of
`_normalize_timestamp` returns it unchanged. -/
theorem spec_C6_normalize_idempotent (s t : String)
    (h : normalizeTimestamp s = some t) : normalizeTimestamp t = some t := by
  unfold normalizeTimestamp fromisoformat at h
  rcases hp : fromisoformatChars s.data with _ | dt
  · rw [hp] at h
    exact Option.noConfusion h
  · rw [hp] at h
    simp only [Option.map_some', Option.some.injEq] at h
    have hv : (normDT dt).validB = true := validB_normDT (fromiso_valid hp)
    have hdata : t.data = isoformatChars (normDT dt) := by
      rw [← h]
      rfl
    have hparse : fromisoformatChars t.data = some (normDT dt) := by
      rw [hdata]
      exact fromiso_isoformat (normDT dt) hv
    unfold normalizeTimestamp fromisoformat
    rw [hparse]
    simp only [Option.map_some', normDT_idem]
    rw [h]

/-- Witness for C6 at a concrete input. -/
theorem spec_C6_normalize_idempotent_witness :
    normalizeTimestamp "2024-06-01T12:30:00" = some "2024-06-01T12:30:00" :=
  spec_C6_normalize_idempotent "2024-06-01T12:37:45" "2024-06-01T12:30:00" (by decide)

/-! ### Python string comparison

Python compares strings lexicographically by Unicode code point; `lexLe` is
that order on the underlying character lists. -/

/-- Python `<=` on strings (code-point lexicographic). -/
def lexLe : List Char → List Char → Bool
  | [], _ => true
  | _ :: _, [] => false
  | a :: as, b :: bs =>
    if a.toNat < b.toNat then true
    else if a.toNat = b.toNat then lexLe as bs
    else false

theorem lexLe_total : ∀ a b : List Char, lexLe a b = true ∨ lexLe b a = true
  | [], _ => Or.inl rfl
  | _ :: _, [] => Or.inr rfl
  | a :: as, b :: bs => by
    simp only [lexLe]
    rcases Nat.lt_trichotomy a.toNat b.toNat with h | h | h
    · left
      rw [if_pos h]
    · rcases lexLe_total as bs with ih | ih
      · left
        rw [if_neg (by omega), if_pos h, ih]
      · right
        rw [if_neg (by omega), if_pos h.symm, ih]
    · right
      rw [if_pos h]

theorem lexLe_trans : ∀ {a b c : List Char},
    lexLe a b = true → lexLe b c = true → lexLe a c = true
  | [], _, _, _, _ => rfl
  | _ :: _, [], _, hab, _ => Bool.noConfusion hab
  | _ :: _, _ :: _, [], _, hbc => Bool.noConfusion hbc
  | a :: as, b :: bs, c :: cs, hab, hbc => by
    simp only [lexLe] at hab hbc ⊢
    by_cases h1 : a.toNat < b.toNat <;> by_cases h2 : b.toNat < c.toNat
    · rw [if_pos (by omega)]
    · rw [if_neg h2] at hbc
      by_cases h3 : b.toNat = c.toNat
      · rw [if_pos (by omega)]
      · rw [if_neg h3] at hbc
        exact absurd hbc (by simp)
    · rw [if_neg h1] at hab
      by_cases h3 : a.toNat = b.toNat
      · rw [if_pos (by omega)]
      · rw [if_neg h3] at hab
        exact absurd hab (by simp)
    · rw [if_neg h1] at hab
      rw [if_neg h2] at hbc
      by_cases h3 : a.toNat = b.toNat
      · by_cases h4 : b.toNat = c.toNat
        · rw [if_neg (by omega), if_pos (by omega)]
          rw [if_pos h3] at hab
          rw [if_pos h4] at hbc
          exact lexLe_trans hab hbc
        · rw [if_neg h4] at hbc
          exact absurd hbc (by simp)
      · rw [if_neg h3] at hab
        exact absurd hab (by simp)

/-! ### Count records and the record store -/

/-- One stored row: `timestamp, severes, warnings, alerts` (`src/storage.py`
reads and writes exactly these four CSV columns; counts are Python ints). -/
structure CountRecord where
  timestamp : String
  severes : Int
  warnings : Int
  alerts : Int
deriving DecidableEq, Repr

/-- The sort key used throughout the source: ascending timestamp string
(`key=lambda x: x['timestamp']`). -/
def tsLe (a b : CountRecord) : Prop := lexLe a.timestamp.data b.timestamp.data = true

instance : DecidableRel tsLe := fun a b =>
  inferInstanceAs (Decidable (_ = true))

instance : IsTotal CountRecord tsLe := ⟨fun a b => lexLe_total _ _⟩

instance : IsTrans CountRecord tsLe := ⟨fun _ _ _ => lexLe_trans⟩

/-- Python `list.sort(key=lambda x: x['timestamp'])`.  `list.sort` is stable;
`List.insertionSort` is also stable, and any two stable sorts by the same key
agree elementwise, so this models the source exactly. -/
def sortByTs (l : List CountRecord) : List CountRecord := List.insertionSort tsLe l

/-- A month partition as persisted: sorted ascending by timestamp with no
duplicate timestamps. -/
def SortedNodup (l : List CountRecord) : Prop :=
  l.Pairwise tsLe ∧ (l.map (fun r => r.timestamp)).Nodup

/-- The object name for a month partition: `f"flood_data_{month}.csv"`. -/
def filenameFor (month : String) : String := "flood_data_" ++ month ++ ".csv"

/-- `timestamp[:7]`, the `YYYY-MM` partition key of a timestamp. -/
def monthOf (timestamp : String) : String := ⟨timestamp.data.take 7⟩

/-- The record store state: contents of each named object.  Persistence
(GCS object or local CSV fallback) is abstracted to the mapping itself;
`_read_csv` of an absent object yields `[]`. -/
def Store : Type := String → List CountRecord

/-- `GCSStorage.store_counts` partition update: drop any row with the same
exact timestamp, append the new row, re-sort by timestamp. -/
def storageStoreCounts (existing : List CountRecord) (timestamp : String)
    (sev warn al : Int) : List CountRecord :=
  sortByTs (existing.filter (fun d => d.timestamp != timestamp) ++
    [⟨timestamp, sev, warn, al⟩])

/-- `GCSStorage.store_counts` as a whole-store transition: read the partition
named by the first 7 characters of the timestamp, update it, write it back. -/
def storageStore (store : Store) (timestamp : String) (sev warn al : Int) : Store :=
  fun k =>
    if k = filenameFor (monthOf timestamp) then
      storageStoreCounts (store (filenameFor (monthOf timestamp))) timestamp sev warn al
    else store k

/-- The `data` argument of `database.store_counts`: a dict in which any of the
three count keys may be missing (`data.get(field, 0)` fills zeroes). -/
structure CountsInput where
  severes : Option Int
  warnings : Option Int
  alerts : Option Int
deriving DecidableEq, Repr

/-- `database.store_counts`: normalize the timestamp (re-raising its parse
error, modelled as `none`), default missing count fields to 0, store under the
normalized timestamp.  `storage.store_counts` itself catches all its internal
errors, so the only escaping exception is the normalizer's. -/
def dbStoreCounts (store : Store) (timestamp : String) (data : CountsInput) :
    Option Store :=
  match normalizeTimestamp timestamp with
  | none => none
  | some nts =>
    some (storageStore store nts (data.severes.getD 0) (data.warnings.getD 0)
      (data.alerts.getD 0))

/-! ### Upsert lemmas (C1) -/

/-- After a partition update, filtering on the written timestamp returns
exactly the new row. -/
theorem storageStoreCounts_filter (existing : List CountRecord) (ts : String)
    (sev warn al : Int) :
    (storageStoreCounts existing ts sev warn al).filter
      (fun d => d.timestamp == ts) = [⟨ts, sev, warn, al⟩] := by
  have hperm := List.perm_insertionSort tsLe
    (existing.filter (fun d => d.timestamp != ts) ++ [⟨ts, sev, warn, al⟩])
  have hfil := hperm.filter (fun d => d.timestamp == ts)
  rw [List.filter_append] at hfil
  have h1 : (existing.filter (fun d => d.timestamp != ts)).filter
      (fun d => d.timestamp == ts) = [] := by
    rw [List.filter_eq_nil_iff]
    intro a ha
    have := (List.mem_filter.mp ha).2
    simp only [bne_iff_ne, ne_eq] at this
    simp [this]
  have h2 : List.filter (fun d => d.timestamp == ts) [(⟨ts, sev, warn, al⟩ : CountRecord)] =
      [⟨ts, sev, warn, al⟩] := by simp
  rw [h1, h2, List.nil_append] at hfil
  exact List.perm_singleton.mp hfil

/-- A partition update preserves sortedness and timestamp uniqueness. -/
theorem storageStoreCounts_sortedNodup (existing : List CountRecord) (ts : String)
    (sev warn al : Int) (h : SortedNodup existing) :
    SortedNodup (storageStoreCounts existing ts sev warn al) := by
  unfold storageStoreCounts sortByTs
  constructor
  · exact List.sorted_insertionSort tsLe _
  · have hperm := (List.perm_insertionSort tsLe
      (existing.filter (fun d => d.timestamp != ts) ++ [⟨ts, sev, warn, al⟩])).map
      (fun r => r.timestamp)
    rw [hperm.nodup_iff, List.map_append, List.nodup_append]
    refine ⟨?_, by simp, ?_⟩
    · exact h.2.sublist ((List.filter_sublist existing).map (fun r => r.timestamp))
    · intro a ha hb
      simp only [List.map_cons, List.map_nil, List.mem_singleton] at hb
      subst hb
      obtain ⟨r, hr, hrts⟩ := List.mem_map.mp ha
      have := (List.mem_filter.mp hr).2
      rw [hrts] at this
      simp at this

/-- C1: a store is an upsert — after `store_counts`, the month partition of
the normalized timestamp holds exactly one row for that timestamp, carrying
this write's values, and a sorted duplicate-free partition stays sorted and
duplicate-free. -/
theorem spec_C1_store_upsert (store : Store) (ts : String) (data : CountsInput)
    (dt : PyDateTime) (hparse : fromisoformat ts = some dt) :
    ∃ store2 : Store, dbStoreCounts store ts data = some store2 ∧
      ((store2 (filenameFor (monthOf (isoformat (normDT dt))))).filter
          (fun d => d.timestamp == isoformat (normDT dt)) =
        [⟨isoformat (normDT dt), data.severes.getD 0, data.warnings.getD 0,
          data.alerts.getD 0⟩]) ∧
      (SortedNodup (store (filenameFor (monthOf (isoformat (normDT dt))))) →
        SortedNodup (store2 (filenameFor (monthOf (isoformat (normDT dt)))))) := by
  have hnorm : normalizeTimestamp ts = some (isoformat (normDT dt)) := by
    unfold normalizeTimestamp
    rw [hparse]
    rfl
  refine ⟨storageStore store (isoformat (normDT dt)) (data.severes.getD 0)
    (data.warnings.getD 0) (data.alerts.getD 0), ?_, ?_, ?_⟩
  · unfold dbStoreCounts
    rw [hnorm]
  · unfold storageStore
    rw [if_pos rfl]
    exact storageStoreCounts_filter _ _ _ _ _
  · intro hsn
    unfold storageStore
    rw [if_pos rfl]
    exact storageStoreCounts_sortedNodup _ _ _ _ _ hsn

/-- Witness for C1: store twice at timestamps that normalize identically;
the second write's values win and the partition stays well-formed. -/
theorem spec_C1_store_upsert_witness :
    ∃ store2 : Store,
      dbStoreCounts (fun _ => []) "2024-01-01T00:07:59" ⟨some 1, some 2, some 3⟩ =
        some store2 ∧
      ((store2 (filenameFor (monthOf (isoformat (normDT
          ⟨2024, 1, 1, 0, 7, 59, 0, none⟩))))).filter
          (fun d => d.timestamp ==
            isoformat (normDT ⟨2024, 1, 1, 0, 7, 59, 0, none⟩)) =
        [⟨isoformat (normDT ⟨2024, 1, 1, 0, 7, 59, 0, none⟩), 1, 2, 3⟩]) ∧
      (SortedNodup ((fun _ => ([] : List CountRecord))
          (filenameFor (monthOf (isoformat (normDT ⟨2024, 1, 1, 0, 7, 59, 0, none⟩))))) →
        SortedNodup (store2 (filenameFor (monthOf (isoformat (normDT
          ⟨2024, 1, 1, 0, 7, 59, 0, none⟩)))))) :=
  spec_C1_store_upsert (fun _ => []) "2024-01-01T00:07:59" ⟨some 1, some 2, some 3⟩
    ⟨2024, 1, 1, 0, 7, 59, 0, none⟩ (by decide)

/-! ### Datetime arithmetic and comparison -/

/-- Days since 1970-01-01 of a civil date (standard era-based formula);
used only to place datetimes on one absolute timeline. -/
def daysFromCivil (y m d : Nat) : Int :=
  let yy := if m ≤ 2 then y - 1 else y
  let era := yy / 400
  let yoe := yy % 400
  let mp := if m ≤ 2 then m + 9 else m - 3
  let doy := (153 * mp + 2) / 5 + d - 1
  let doe := yoe * 365 + yoe / 4 - yoe / 100 + doy
  ((era * 146097 + doe : Nat) : Int) - 719468

/-- Microseconds on the absolute (offset-adjusted) timeline; Python compares
and subtracts datetimes on this timeline. -/
def dtToAbsMicro (dt : PyDateTime) : Int :=
  let offMin : Int :=
    match dt.tz with
    | none => 0
    | some (neg, h, m) => (if neg then (-1 : Int) else 1) * (h * 60 + m)
  (((daysFromCivil dt.year dt.month dt.day * 24 + dt.hour) * 60 + dt.minute - offMin)
      * 60 + dt.second) * 1000000 + dt.microsecond

/-- Python `<=` on datetimes: defined for two naive or two aware values,
a `TypeError` (`none`) on a mixed pair. -/
def dtLe (a b : PyDateTime) : Option Bool :=
  if a.tz.isSome = b.tz.isSome then some (decide (dtToAbsMicro a ≤ dtToAbsMicro b))
  else none

/-- Python `b - a` as a `timedelta` in microseconds; `TypeError` on a mixed
naive/aware pair. -/
def dtSubMicro (b a : PyDateTime) : Option Int :=
  if a.tz.isSome = b.tz.isSome then some (dtToAbsMicro b - dtToAbsMicro a) else none

/-- `datetime.now().strftime("%Y-%m")`. -/
def monthStr (dt : PyDateTime) : String := ⟨pad4 dt.year ++ '-' :: pad2 dt.month⟩

/-! ### The read path (`storage.py` / `database.py`) -/

/-- `GCSStorage._create_default_response`: one zero-count row stamped `now`. -/
def createDefaultResponse (now : PyDateTime) : List CountRecord :=
  [⟨isoformat now, 0, 0, 0⟩]

/-- `GCSStorage._validate_date_range`: `False` when start > end, and `False`
via the caught `TypeError` on a mixed naive/aware pair (including against
`datetime.now()` in the future-end advisory check); the future-end and
365-day checks themselves are warnings with no effect. -/
def validateDateRange (a b now : PyDateTime) : Bool :=
  match dtLe a b with
  | none => false
  | some ab => ab && decide (b.tz.isSome = now.tz.isSome)

/-- `GCSStorage._validate_data_structure` on typed records: presence of the
four fields and their numeric types are guaranteed by the record type, so the
remaining check is that every timestamp parses. -/
def validateDataStructure (data : List CountRecord) : Bool :=
  data.all (fun r => (fromisoformat r.timestamp).isSome)

/-- The `YYYY-MM` keys of the months from `start_date`'s month through
`end_date`'s month, as produced by the `while current <= end` loop of
`get_counts_between_dates` (month index `y*12 + (m-1)`). -/
def monthsBetween (a b : PyDateTime) : List String :=
  let ia := a.year * 12 + (a.month - 1)
  let ib := b.year * 12 + (b.month - 1)
  (List.range (ib + 1 - ia)).map
    (fun i => ⟨pad4 ((ia + i) / 12) ++ '-' :: pad2 ((ia + i) % 12 + 1)⟩)

/-- The concatenation of the partitions of every month from `a`'s through
`b`'s (`all_data` in `get_counts_between_dates`; a missing partition reads as
`[]` and contributes nothing). -/
def allMonthData (store : Store) (a b : PyDateTime) : List CountRecord :=
  ((monthsBetween a b).map (fun m => store (filenameFor m))).flatten

/-- The range filter `start_str <= d['timestamp'] <= end_str`: lexicographic
string comparison against the endpoint isoformats. -/
def inRangeB (a b : PyDateTime) (d : CountRecord) : Bool :=
  lexLe (isoformat a).data d.timestamp.data && lexLe d.timestamp.data (isoformat b).data

/-- `GCSStorage.get_counts_between_dates`: validate, gather the partitions of
every month in range, filter by lexicographic string comparison against the
endpoint isoformats, sort; any failure and any empty result yield the default
response. -/
def storageGetCountsBetween (store : Store) (a b now : PyDateTime) :
    List CountRecord :=
  if validateDateRange a b now = false then createDefaultResponse now
  else
    let allData := allMonthData store a b
    if allData.isEmpty then createDefaultResponse now
    else if validateDataStructure allData = false then createDefaultResponse now
    else
      let sortedF := sortByTs (allData.filter (inRangeB a b))
      if sortedF.isEmpty then createDefaultResponse now else sortedF

/-- `GCSStorage.get_latest_counts`: last row of the current calendar month's
partition, or the default row when that partition is absent or empty. -/
def storageGetLatest (store : Store) (now : PyDateTime) : CountRecord :=
  match (store (filenameFor (monthStr now))).getLast? with
  | none => ⟨isoformat now, 0, 0, 0⟩
  | some r => r

/-- `database.get_latest_counts`: the storage result is always a four-field
dict (hence truthy), and `_create_ordered_response` is the identity on typed
records, so this is the storage result itself. -/
def dbGetLatest (store : Store) (now : PyDateTime) : CountRecord :=
  storageGetLatest store now

/-! ### Aggregation (`database._aggregate_data`) -/

/-- Round-half-to-even of `sum / len` (Python `round(statistics.mean(...))`,
the float arithmetic modelled exactly over the rationals). -/
def pyRoundMean (sum : Int) (len : Nat) : Int :=
  let d : Int := len
  let q := Int.fdiv sum d
  let r := sum - q * d
  if 2 * r < d then q
  else if d < 2 * r then q + 1
  else if q % 2 = 0 then q else q + 1

/-- Close a bucket: one averaged row stamped with the bucket start. -/
def emitGroup (start : PyDateTime) (group : List CountRecord) : CountRecord :=
  ⟨isoformat start,
   pyRoundMean (group.map (fun r => r.severes)).sum group.length,
   pyRoundMean (group.map (fun r => r.warnings)).sum group.length,
   pyRoundMean (group.map (fun r => r.alerts)).sum group.length⟩

/-- The comparison `timestamp < current_interval_start + interval`:
`TypeError` (`none`) when a naive and an aware datetime are mixed. -/
def ltShifted (p start : PyDateTime) (delta : Int) : Option Bool :=
  if p.tz.isSome = start.tz.isSome then
    some (decide (dtToAbsMicro p < dtToAbsMicro start + delta))
  else none

/-- The record walk of `database._aggregate_data`: a record joins the current
bucket while strictly inside the interval, otherwise the bucket is emitted and
a new one starts at the record's timestamp.  `none` models an exception
(unparseable timestamp or mixed naivety), which the caller turns into `[]`. -/
def aggLoop (delta : Int) (start : PyDateTime) (group : List CountRecord) :
    List CountRecord → Option (List CountRecord)
  | [] => some (if group.isEmpty then [] else [emitGroup start group])
  | p :: rest =>
    match fromisoformat p.timestamp with
    | none => none
    | some pdt =>
      match ltShifted pdt start delta with
      | none => none
      | some true => aggLoop delta start (group ++ [p]) rest
      | some false =>
        match aggLoop delta pdt [p] rest with
        | none => none
        | some tail =>
          some ((if group.isEmpty then [] else [emitGroup start group]) ++ tail)

/-- `database._aggregate_data`: sort by timestamp, walk buckets of
`interval_hours` hours seeded at the first timestamp; empty input and any
internal exception give `[]`. -/
def aggregateData (data : List CountRecord) (intervalHours : Nat) : List CountRecord :=
  if data.isEmpty then []
  else
    match sortByTs data with
    | [] => []
    | first :: rest =>
      match fromisoformat first.timestamp with
      | none => []
      | some startDt =>
        (aggLoop ((intervalHours : Int) * 3600000000) startDt [] (first :: rest)).getD []

/-- Microseconds per day. -/
def dayMicro : Int := 86400000000

/-- `database.get_counts_between_dates`: storage read, default when empty,
span-keyed aggregation (6h for more than 7 days, 2h for more than 2 days,
1h for more than 1 day), final sort; an escaping exception (the `TypeError`
from `end_date - start_date` on a mixed pair) yields the single default row. -/
def dbGetCountsBetween (store : Store) (a b now : PyDateTime) : List CountRecord :=
  match dtSubMicro b a with
  | none => createDefaultResponse now
  | some diff =>
    let results := storageGetCountsBetween store a b now
    if results.isEmpty then createDefaultResponse now
    else
      let results2 :=
        if 7 * dayMicro < diff then aggregateData results 6
        else if 2 * dayMicro < diff then aggregateData results 2
        else if dayMicro < diff then aggregateData results 1
        else results
      sortByTs results2

/-! ### Pagination -/

/-- Modelled from the spec: the Paginator of §4.6 is missing from
`src/database.py` (`get_counts_between_dates` there takes only the two dates,
while its caller `main.get_historical_data` passes `page` and `per_page`);
per the spec it returns the slice `[(page-1)*perPage, page*perPage)`. -/
def paginate (records : List CountRecord) (page perPage : Nat) : List CountRecord :=
  (records.drop ((page - 1) * perPage)).take perPage

/-- Modelled from the spec: the paginated range query slices the sorted
range-query result and passes an empty slice through the Default-Response
Policy. -/
def queryRangePaginated (store : Store) (a b now : PyDateTime)
    (page perPage : Nat) : List CountRecord :=
  let res := paginate (dbGetCountsBetween store a b now) page perPage
  if res.isEmpty then createDefaultResponse now else res

/-! ### Shared helper lemmas -/

theorem lexLe_refl : ∀ l : List Char, lexLe l l = true
  | [] => rfl
  | a :: as => by
    simp only [lexLe, if_neg (lt_irrefl a.toNat), if_pos rfl]
    exact lexLe_refl as

/-- A parse success makes `database.store_counts` succeed with the
defaulted fields stored under the normalized timestamp. -/
theorem dbStoreCounts_eq (store : Store) (ts : String) (data : CountsInput)
    (dt : PyDateTime) (hparse : fromisoformat ts = some dt) :
    dbStoreCounts store ts data =
      some (storageStore store (isoformat (normDT dt)) (data.severes.getD 0)
        (data.warnings.getD 0) (data.alerts.getD 0)) := by
  unfold dbStoreCounts normalizeTimestamp
  rw [hparse]
  rfl

/-- A concrete store used by witnesses: one two-row January partition. -/
def sampleStore : Store := fun k =>
  if k = "flood_data_2024-01.csv" then
    [⟨"2024-01-01T00:00:00", 1, 2, 3⟩, ⟨"2024-01-31T23:45:00", 4, 5, 6⟩]
  else []

/-! ### C10: missing count fields default to zero on the write path -/

/-- C10: a store call whose counts dict lacks any of `severes`, `warnings`,
`alerts` still succeeds, and each missing field is stored as 0; success of the
write path never depends on which count fields are present. -/
theorem spec_C10_missing_fields (store : Store) (ts : String) (dt : PyDateTime)
    (hparse : fromisoformat ts = some dt) (data : CountsInput) :
    ∃ store2 : Store, dbStoreCounts store ts data = some store2 ∧
      ((store2 (filenameFor (monthOf (isoformat (normDT dt))))).filter
          (fun d => d.timestamp == isoformat (normDT dt)) =
        [⟨isoformat (normDT dt), data.severes.getD 0, data.warnings.getD 0,
          data.alerts.getD 0⟩]) ∧
      (data.severes = none → data.severes.getD 0 = 0) ∧
      (data.warnings = none → data.warnings.getD 0 = 0) ∧
      (data.alerts = none → data.alerts.getD 0 = 0) := by
  refine ⟨_, dbStoreCounts_eq store ts data dt hparse, ?_, ?_, ?_, ?_⟩
  · unfold storageStore
    rw [if_pos rfl]
    exact storageStoreCounts_filter _ _ _ _ _
  · intro h; rw [h]; rfl
  · intro h; rw [h]; rfl
  · intro h; rw [h]; rfl

/-- Witness for C10: all three count fields missing are stored as zeros. -/
theorem spec_C10_missing_fields_witness :
    ∃ store2 : Store,
      dbStoreCounts sampleStore "2024-02-05T10:44:00" ⟨none, none, none⟩ =
        some store2 ∧
      ((store2 (filenameFor (monthOf (isoformat (normDT
          ⟨2024, 2, 5, 10, 44, 0, 0, none⟩))))).filter
          (fun d => d.timestamp ==
            isoformat (normDT ⟨2024, 2, 5, 10, 44, 0, 0, none⟩)) =
        [⟨isoformat (normDT ⟨2024, 2, 5, 10, 44, 0, 0, none⟩),
          (none : Option Int).getD 0, (none : Option Int).getD 0,
          (none : Option Int).getD 0⟩]) ∧
      ((none : Option Int) = none → (none : Option Int).getD 0 = 0) ∧
      ((none : Option Int) = none → (none : Option Int).getD 0 = 0) ∧
      ((none : Option Int) = none → (none : Option Int).getD 0 = 0) :=
  spec_C10_missing_fields sampleStore "2024-02-05T10:44:00"
    ⟨2024, 2, 5, 10, 44, 0, 0, none⟩ (by decide) ⟨none, none, none⟩

/-! ### C8: exception propagation of the public entry points -/

/-- Counterexample to C8 as stated: the store entry point does not catch all
internal errors — `database.store_counts` re-raises the normalizer's parse
error (its handler ends in `raise`), so a malformed timestamp propagates an
exception (modelled as `none`) to its caller. -/
theorem spec_C8_counterexample :
    dbStoreCounts (fun _ => []) "garbage" ⟨none, none, none⟩ = none := by
  rfl

/-- The storage-level range query never returns an empty sequence: every
branch ends in the default response or a nonempty sorted result. -/
theorem storageGetCountsBetween_ne_nil (store : Store) (a b now : PyDateTime) :
    storageGetCountsBetween store a b now ≠ [] := by
  unfold storageGetCountsBetween
  split
  · simp [createDefaultResponse]
  · dsimp only
    split
    · simp [createDefaultResponse]
    · split
      · simp [createDefaultResponse]
      · split
        · simp [createDefaultResponse]
        · next hne =>
          simpa [List.isEmpty_iff] using hne

/-- C8 amended: the read entry points (`get_latest_counts`,
`get_counts_between_dates`) catch every internal error and return a
well-formed value — latest yields the current partition's last row or the
default row, and the storage range query always returns at least one row —
while the store entry point propagates an exception exactly when the
timestamp fails to parse, and succeeds otherwise. -/
theorem spec_C8_amended (store : Store) (ts : String) (data : CountsInput)
    (now a b : PyDateTime) :
    ((dbStoreCounts store ts data).isSome ↔ (fromisoformat ts).isSome) ∧
    (dbGetLatest store now = ⟨isoformat now, 0, 0, 0⟩ ∨
      dbGetLatest store now ∈ store (filenameFor (monthStr now))) ∧
    storageGetCountsBetween store a b now ≠ [] := by
  refine ⟨?_, ?_, storageGetCountsBetween_ne_nil store a b now⟩
  · unfold dbStoreCounts normalizeTimestamp
    rcases h : fromisoformat ts with _ | dt <;> simp
  · unfold dbGetLatest storageGetLatest
    rcases h : (store (filenameFor (monthStr now))).getLast? with _ | r
    · exact Or.inl rfl
    · obtain ⟨ys, hys⟩ := List.getLast?_eq_some_iff.mp h
      rw [hys]
      exact Or.inr (by simp)

/-! ### C9: latest() reads only the current month's partition -/

/-- C9: `latest()` depends only on the current calendar month's partition;
when that partition is absent or empty the default row stamped `now` is
returned no matter what other partitions hold, and when it is nonempty and
sorted the returned record is its last element in sort order (a member that
every record of the partition is `≤`). -/
theorem spec_C9_latest (store : Store) (now : PyDateTime) :
    (store (filenameFor (monthStr now)) = [] →
      dbGetLatest store now = ⟨isoformat now, 0, 0, 0⟩) ∧
    (∀ store2 : Store,
      store2 (filenameFor (monthStr now)) = store (filenameFor (monthStr now)) →
      dbGetLatest store2 now = dbGetLatest store now) ∧
    (store (filenameFor (monthStr now)) ≠ [] →
      (store (filenameFor (monthStr now))).Pairwise tsLe →
      dbGetLatest store now ∈ store (filenameFor (monthStr now)) ∧
      ∀ x ∈ store (filenameFor (monthStr now)), tsLe x (dbGetLatest store now)) := by
  refine ⟨?_, ?_, ?_⟩
  · intro h
    unfold dbGetLatest storageGetLatest
    rw [h]
    rfl
  · intro store2 h
    unfold dbGetLatest storageGetLatest
    rw [h]
  · intro hne hsorted
    unfold dbGetLatest storageGetLatest
    rcases hlast : (store (filenameFor (monthStr now))).getLast? with _ | r
    · exact absurd (List.getLast?_eq_none_iff.mp hlast) hne
    · obtain ⟨ys, hys⟩ := List.getLast?_eq_some_iff.mp hlast
      constructor
      · rw [hys]
        simp
      · intro x hx
        rw [hys] at hsorted hx
        rw [List.pairwise_append] at hsorted
        rcases List.mem_append.mp hx with hx | hx
        · exact hsorted.2.2 x hx r (by simp)
        · have : x = r := by simpa using hx
          subst this
          exact lexLe_refl _

/-- Witness for C9: on a concrete store, a March query sees the empty March
partition and returns the default row although January holds records, and a
January query returns the last row of the January partition. -/
theorem spec_C9_latest_witness :
    dbGetLatest sampleStore ⟨2024, 3, 1, 12, 0, 0, 0, none⟩ =
      ⟨"2024-03-01T12:00:00", 0, 0, 0⟩ ∧
    dbGetLatest sampleStore ⟨2024, 1, 5, 0, 0, 0, 0, none⟩ ∈
      sampleStore "flood_data_2024-01.csv" := by
  constructor
  · exact ((spec_C9_latest sampleStore ⟨2024, 3, 1, 12, 0, 0, 0, none⟩).1
      (by decide)).trans (by decide)
  · exact ((spec_C9_latest sampleStore ⟨2024, 1, 5, 0, 0, 0, 0, none⟩).2.2
      (by decide) (by decide)).1

/-! ### C4: pagination -/

/-- C4: the paginator returns the slice `[(page-1)*perPage, page*perPage)` —
characterized elementwise — with the spec's concrete examples over five
records, and an out-of-range page yields the empty slice, which the paginated
range query replaces by the Default-Response.  (The paginator itself is
modelled from the spec, §4.6, because `src/database.py` implements no
pagination; see `paginate`.) -/
theorem spec_C4_paginate :
    (∀ (l : List CountRecord) (page perPage i : Nat),
      (paginate l page perPage)[i]? =
        if i < perPage then l[(page - 1) * perPage + i]? else none) ∧
    (∀ r0 r1 r2 r3 r4 : CountRecord,
      paginate [r0, r1, r2, r3, r4] 2 2 = [r2, r3] ∧
      paginate [r0, r1, r2, r3, r4] 3 2 = [r4] ∧
      paginate [r0, r1, r2, r3, r4] 4 2 = []) ∧
    (∀ (store : Store) (a b now : PyDateTime) (page perPage : Nat),
      paginate (dbGetCountsBetween store a b now) page perPage = [] →
      queryRangePaginated store a b now page perPage = createDefaultResponse now) := by
  refine ⟨?_, ?_, ?_⟩
  · intro l page perPage i
    unfold paginate
    rw [List.getElem?_take]
    split
    · rw [List.getElem?_drop]
    · rfl
  · intro r0 r1 r2 r3 r4
    exact ⟨rfl, rfl, rfl⟩
  · intro store a b now page perPage h
    unfold queryRangePaginated
    rw [h]
    rfl

/-- Witness for C4: an out-of-range page over a concrete store becomes the
Default-Response. -/
theorem spec_C4_paginate_witness :
    queryRangePaginated sampleStore ⟨2024, 1, 1, 0, 0, 0, 0, none⟩
      ⟨2024, 1, 1, 12, 0, 0, 0, none⟩ ⟨2024, 3, 1, 12, 0, 0, 0, none⟩ 100 2 =
      createDefaultResponse ⟨2024, 3, 1, 12, 0, 0, 0, none⟩ :=
  spec_C4_paginate.2.2 sampleStore ⟨2024, 1, 1, 0, 0, 0, 0, none⟩
    ⟨2024, 1, 1, 12, 0, 0, 0, none⟩ ⟨2024, 3, 1, 12, 0, 0, 0, none⟩ 100 2 (by decide)

/-! ### C2: the range query -/

/-- The range query returns either the default response or the sorted
filtered data — one case per return statement of the source. -/
theorem storageGCB_cases (store : Store) (a b now : PyDateTime) :
    storageGetCountsBetween store a b now = createDefaultResponse now ∨
    (storageGetCountsBetween store a b now =
        sortByTs ((allMonthData store a b).filter (inRangeB a b)) ∧
      validateDataStructure (allMonthData store a b) = true) := by
  unfold storageGetCountsBetween
  split
  · exact Or.inl rfl
  · dsimp only
    split
    · exact Or.inl rfl
    · split
      next hv => exact Or.inl rfl
      next hv =>
        split
        · exact Or.inl rfl
        · exact Or.inr ⟨rfl, by revert hv; cases validateDataStructure (allMonthData store a b) <;> simp⟩

theorem digitChar_inj {a b : Nat} (ha : a < 10) (hb : b < 10)
    (h : digitChar a = digitChar b) : a = b := by
  have h2 := congrArg Char.toNat h
  rw [toNat_digitChar a ha, toNat_digitChar b hb] at h2
  omega

/-- The `YYYY-MM` key is injective in the month index (for indices within the
Python datetime year range). -/
theorem monthKey_inj (k1 k2 : Nat) (h1 : k1 / 12 ≤ 9999) (h2 : k2 / 12 ≤ 9999)
    (h : (⟨pad4 (k1 / 12) ++ '-' :: pad2 (k1 % 12 + 1)⟩ : String) =
      (⟨pad4 (k2 / 12) ++ '-' :: pad2 (k2 % 12 + 1)⟩ : String)) : k1 = k2 := by
  have hd : pad4 (k1 / 12) ++ '-' :: pad2 (k1 % 12 + 1) =
      pad4 (k2 / 12) ++ '-' :: pad2 (k2 % 12 + 1) := congrArg String.data h
  simp only [pad4, pad2, List.cons_append, List.nil_append, List.cons.injEq,
    and_true] at hd
  obtain ⟨e1, e2, e3, e4, -, e5, e6⟩ := hd
  have y1 := digitChar_inj (by omega) (by omega) e1
  have y2 := digitChar_inj (by omega) (by omega) e2
  have y3 := digitChar_inj (by omega) (by omega) e3
  have y4 := digitChar_inj (by omega) (by omega) e4
  have m1 := digitChar_inj (by omega) (by omega) e5
  have m2 := digitChar_inj (by omega) (by omega) e6
  omega

/-- The month keys enumerated by the range query are pairwise distinct. -/
theorem monthsBetween_nodup (a b : PyDateTime) (hby : b.year ≤ 9999)
    (hbm : b.month ≤ 12) : (monthsBetween a b).Nodup := by
  unfold monthsBetween
  apply List.Nodup.map_on ?_ (List.nodup_range _)
  intro x hx y hy hkey
  rw [List.mem_range] at hx hy
  set ia := a.year * 12 + (a.month - 1) with hia
  set ib := b.year * 12 + (b.month - 1) with hib
  have hxb : ia + x ≤ ib := by omega
  have hyb : ia + y ≤ ib := by omega
  have hibb : ib ≤ 9999 * 12 + 11 := by omega
  have := monthKey_inj (ia + x) (ia + y) (by omega) (by omega) hkey
  omega

/-- A well-formed store: every partition is sorted with distinct timestamps,
and holds only records whose timestamp's `YYYY-MM` prefix is the partition's
month — exactly what the write path maintains. -/
def WellFormedStore (store : Store) : Prop :=
  ∀ month : String, (store (filenameFor month)).Pairwise tsLe ∧
    ((store (filenameFor month)).map (fun r => r.timestamp)).Nodup ∧
    ∀ r ∈ store (filenameFor month), monthOf r.timestamp = month

/-- Concatenating the partitions of distinct months of a well-formed store
yields pairwise-distinct timestamps, because each record's timestamp
determines its month. -/
theorem allMonthData_ts_nodup (store : Store) (a b : PyDateTime)
    (hwf : WellFormedStore store) (hby : b.year ≤ 9999) (hbm : b.month ≤ 12) :
    ((allMonthData store a b).map (fun r => r.timestamp)).Nodup := by
  unfold allMonthData
  rw [List.map_flatten, List.nodup_flatten]
  constructor
  · intro l hl
    rw [List.map_map, List.mem_map] at hl
    obtain ⟨m, hm, rfl⟩ := hl
    exact (hwf m).2.1
  · rw [List.map_map]
    apply List.Pairwise.map (fun m => ((store (filenameFor m)).map (fun r => r.timestamp)))
      ?_ (monthsBetween_nodup a b hby hbm)
    intro m1 m2 hne t ht1 ht2
    simp only [List.mem_map] at ht1 ht2
    obtain ⟨r1, hr1, rfl⟩ := ht1
    obtain ⟨r2, hr2, ht⟩ := ht2
    have e1 := (hwf m1).2.2 r1 hr1
    have e2 := (hwf m2).2.2 r2 hr2
    rw [ht] at e2
    exact hne (e1.symm.trans e2)

/-- Membership transfers through the stable sort. -/
theorem mem_sortByTs {x : CountRecord} {l : List CountRecord} :
    x ∈ sortByTs l ↔ x ∈ l :=
  (List.perm_insertionSort tsLe l).mem_iff

/-- The `flood_data_{month}.csv` decoration is injective in the month. -/
theorem filenameFor_inj {m1 m2 : String} (h : filenameFor m1 = filenameFor m2) :
    m1 = m2 := by
  have hd := congrArg String.data h
  simp only [filenameFor, String.data_append] at hd
  rw [List.append_assoc, List.append_assoc] at hd
  exact String.ext (List.append_cancel_right (List.append_cancel_left hd))

/-- The witness store is well-formed. -/
theorem sampleStore_wf : WellFormedStore sampleStore := by
  intro month
  by_cases hm : month = "2024-01"
  · subst hm
    exact ⟨by decide, by decide, by decide⟩
  · have hne : sampleStore (filenameFor month) = [] := by
      unfold sampleStore
      rw [if_neg (show ¬(filenameFor month = "flood_data_2024-01.csv") from
        fun hc => hm (@filenameFor_inj month "2024-01" hc))]
    rw [hne]
    exact ⟨List.Pairwise.nil, List.nodup_nil, by simp⟩

/-- C2 amended: for a well-formed store the range query's result is always
sorted ascending with pairwise-distinct timestamps, and either every returned
record's timestamp lies within `[a, b]` under ISO-string comparison, or no
stored record matched and the result is exactly the single default row
stamped `now` (whose timestamp can lie outside the range). -/
theorem spec_C2_amended (store : Store) (a b now : PyDateTime)
    (hwf : WellFormedStore store) (hby : b.year ≤ 9999) (hbm : b.month ≤ 12) :
    SortedNodup (storageGetCountsBetween store a b now) ∧
    ((∀ r ∈ storageGetCountsBetween store a b now,
        lexLe (isoformat a).data r.timestamp.data = true ∧
        lexLe r.timestamp.data (isoformat b).data = true) ∨
      storageGetCountsBetween store a b now = createDefaultResponse now) := by
  rcases storageGCB_cases store a b now with h | ⟨h, -⟩
  · rw [h]
    exact ⟨⟨List.pairwise_singleton _ _, by simp [createDefaultResponse]⟩, Or.inr rfl⟩
  · rw [h]
    refine ⟨⟨List.sorted_insertionSort tsLe _, ?_⟩, Or.inl ?_⟩
    · unfold sortByTs
      have hperm := (List.perm_insertionSort tsLe
        ((allMonthData store a b).filter (inRangeB a b))).map (fun r => r.timestamp)
      rw [hperm.nodup_iff]
      exact (allMonthData_ts_nodup store a b hwf hby hbm).sublist
        ((List.filter_sublist (allMonthData store a b)).map (fun r => r.timestamp))
    · intro r hr
      have hr2 := (List.mem_filter.mp (mem_sortByTs.mp hr)).2
      unfold inRangeB at hr2
      exact ⟨by revert hr2; cases lexLe (isoformat a).data r.timestamp.data <;> simp,
        by revert hr2; cases lexLe r.timestamp.data (isoformat b).data <;> simp⟩

/-- Witness for C2 amended: a two-partition store queried across a month
boundary returns three in-range rows, sorted, without duplicates. -/
theorem spec_C2_amended_witness :
    SortedNodup (storageGetCountsBetween sampleStore ⟨2024, 1, 1, 0, 0, 0, 0, none⟩
      ⟨2024, 2, 15, 0, 0, 0, 0, none⟩ ⟨2024, 3, 1, 12, 0, 0, 0, none⟩) ∧
    ((∀ r ∈ storageGetCountsBetween sampleStore ⟨2024, 1, 1, 0, 0, 0, 0, none⟩
        ⟨2024, 2, 15, 0, 0, 0, 0, none⟩ ⟨2024, 3, 1, 12, 0, 0, 0, none⟩,
        lexLe (isoformat ⟨2024, 1, 1, 0, 0, 0, 0, none⟩).data r.timestamp.data = true ∧
        lexLe r.timestamp.data (isoformat ⟨2024, 2, 15, 0, 0, 0, 0, none⟩).data = true) ∨
      storageGetCountsBetween sampleStore ⟨2024, 1, 1, 0, 0, 0, 0, none⟩
        ⟨2024, 2, 15, 0, 0, 0, 0, none⟩ ⟨2024, 3, 1, 12, 0, 0, 0, none⟩ =
        createDefaultResponse ⟨2024, 3, 1, 12, 0, 0, 0, none⟩) :=
  spec_C2_amended sampleStore ⟨2024, 1, 1, 0, 0, 0, 0, none⟩
    ⟨2024, 2, 15, 0, 0, 0, 0, none⟩ ⟨2024, 3, 1, 12, 0, 0, 0, none⟩
    sampleStore_wf (by decide) (by decide)

/-- Counterexample to C2 as stated: with an empty store and a past range, the
query returns the default row stamped `now`, whose timestamp lies outside
`[a, b]` — so not every returned record is within the range. -/
theorem spec_C2_counterexample :
    storageGetCountsBetween (fun _ => []) ⟨2024, 1, 1, 0, 0, 0, 0, none⟩
      ⟨2024, 1, 1, 0, 0, 0, 0, none⟩ ⟨2030, 6, 1, 0, 0, 0, 0, none⟩ =
      [⟨"2030-06-01T00:00:00", 0, 0, 0⟩] ∧
    lexLe ("2030-06-01T00:00:00" : String).data
      (isoformat ⟨2024, 1, 1, 0, 0, 0, 0, none⟩).data = false := by
  constructor
  · decide
  · decide

/-! ### C3: single-bucket aggregation -/

/-- When every remaining record stays strictly inside the current interval,
the walk accumulates them all into the current group and emits one row. -/
theorem aggLoop_all (w : Int) (start : PyDateTime) (l : List CountRecord) :
    ∀ group : List CountRecord,
      (∀ r ∈ l, ∃ pdt, fromisoformat r.timestamp = some pdt ∧
        pdt.tz.isSome = start.tz.isSome ∧
        dtToAbsMicro pdt < dtToAbsMicro start + w) →
      aggLoop w start group l =
        some (if (group ++ l).isEmpty then [] else [emitGroup start (group ++ l)]) := by
  induction l with
  | nil =>
    intro group h
    rw [List.append_nil]
    rfl
  | cons p rest ih =>
    intro group h
    obtain ⟨pdt, hp, htz, hlt⟩ := h p (by simp)
    have hshift : ltShifted pdt start w = some true := by
      unfold ltShifted
      rw [if_pos htz, decide_eq_true hlt]
    have hrec := ih (group ++ [p]) (fun r hr => h r (by simp [hr]))
    simp only [aggLoop, hp, hshift, hrec, List.append_assoc, List.singleton_append]

/-- C3 amended: aggregating a nonempty sorted sequence whose parsed
timestamps all lie strictly within one bucket width of the first record's
parsed timestamp yields exactly one record whose count fields are the
round-half-to-even means and whose timestamp is the canonical serialization
of the first record's timestamp (equal to the first record's timestamp
string whenever that string is canonical, as every stored record's is);
aggregating the empty sequence yields the empty sequence. -/
theorem spec_C3_aggregate_single_bucket :
    (∀ (first : CountRecord) (rest : List CountRecord) (w : Nat) (fdt : PyDateTime),
      (first :: rest).Pairwise tsLe →
      fromisoformat first.timestamp = some fdt →
      (∀ r ∈ first :: rest, ∃ pdt, fromisoformat r.timestamp = some pdt ∧
        pdt.tz.isSome = fdt.tz.isSome ∧
        dtToAbsMicro pdt < dtToAbsMicro fdt + (w : Int) * 3600000000) →
      aggregateData (first :: rest) w =
        [⟨isoformat fdt,
          pyRoundMean ((first :: rest).map (fun r => r.severes)).sum
            (first :: rest).length,
          pyRoundMean ((first :: rest).map (fun r => r.warnings)).sum
            (first :: rest).length,
          pyRoundMean ((first :: rest).map (fun r => r.alerts)).sum
            (first :: rest).length⟩]) ∧
    (∀ w : Nat, aggregateData [] w = []) := by
  constructor
  · intro first rest w fdt hsorted hparse hall
    unfold aggregateData
    rw [if_neg (by simp)]
    have hsort : sortByTs (first :: rest) = first :: rest :=
      List.Sorted.insertionSort_eq hsorted
    rw [hsort]
    simp only [hparse]
    rw [aggLoop_all ((w : Int) * 3600000000) fdt (first :: rest) [] hall]
    simp [emitGroup]
  · intro w
    rfl

/-- Witness for C3: two records half an hour apart aggregated with a one-hour
bucket produce one row carrying the rounded means, stamped with the first
record's timestamp. -/
theorem spec_C3_aggregate_single_bucket_witness :
    aggregateData [⟨"2024-01-01T00:00:00", 1, 0, 0⟩, ⟨"2024-01-01T00:30:00", 2, 1, 0⟩] 1 =
      [⟨"2024-01-01T00:00:00", 2, 0, 0⟩] ∧
    aggregateData [] 1 = [] := by
  have h1 := spec_C3_aggregate_single_bucket.1 ⟨"2024-01-01T00:00:00", 1, 0, 0⟩
    [⟨"2024-01-01T00:30:00", 2, 1, 0⟩] 1 ⟨2024, 1, 1, 0, 0, 0, 0, none⟩
    (by decide) (by decide)
    (by
      intro r hr
      rcases List.mem_cons.mp hr with rfl | hr2
      · exact ⟨⟨2024, 1, 1, 0, 0, 0, 0, none⟩, by decide, by decide, by decide⟩
      · rcases List.mem_cons.mp hr2 with rfl | hr3
        · exact ⟨⟨2024, 1, 1, 0, 30, 0, 0, none⟩, by decide, by decide, by decide⟩
        · simp at hr3)
  exact ⟨h1.trans (by decide), spec_C3_aggregate_single_bucket.2 1⟩

/-- Counterexample to C3 as stated: a record whose (valid, 15-minute-aligned)
timestamp string is not in canonical form is re-serialized by the aggregator
— the emitted row's timestamp is `isoformat(fromisoformat(t))`, not `t` — so
the output timestamp differs from the first record's timestamp. -/
theorem spec_C3_counterexample :
    aggregateData [⟨"2024-01-01T00:15", 4, 5, 6⟩] 1 =
      [⟨"2024-01-01T00:15:00", 4, 5, 6⟩] ∧
    ("2024-01-01T00:15:00" : String) ≠ "2024-01-01T00:15" := by
  exact ⟨by decide, by decide⟩

/-! ### C7: the Default-Response policy and non-empty read results -/

/-- `fromisoformat` is a left inverse of `isoformat` on in-range datetimes. -/
theorem fromisoformat_isoformat (dt : PyDateTime) (h : dt.validB = true) :
    fromisoformat (isoformat dt) = some dt :=
  fromiso_isoformat dt h

/-- A stable sort of a nonempty list is nonempty. -/
theorem sortByTs_ne_nil {l : List CountRecord} (h : l ≠ []) : sortByTs l ≠ [] := by
  intro hc
  have hlen := (List.perm_insertionSort tsLe l).length_eq
  unfold sortByTs at hc
  rw [hc] at hlen
  exact h (List.length_eq_zero.mp hlen.symm)

/-- Every record of the concatenated month data comes from some partition. -/
theorem mem_allMonthData {r : CountRecord} {store : Store} {a b : PyDateTime}
    (h : r ∈ allMonthData store a b) : ∃ m, r ∈ store (filenameFor m) := by
  unfold allMonthData at h
  rw [List.mem_flatten] at h
  obtain ⟨l, hl, hrl⟩ := h
  rw [List.mem_map] at hl
  obtain ⟨m, hm, rfl⟩ := hl
  exact ⟨m, hrl⟩

/-- A record returned by the storage range query is the default row or a
validated stored record. -/
theorem storageGCB_mem (store : Store) (a b now : PyDateTime) {r : CountRecord}
    (h : r ∈ storageGetCountsBetween store a b now) :
    r = ⟨isoformat now, 0, 0, 0⟩ ∨
    ((∃ m, r ∈ store (filenameFor m)) ∧ (fromisoformat r.timestamp).isSome = true) := by
  rcases storageGCB_cases store a b now with hc | ⟨hc, hv⟩
  · rw [hc] at h
    left
    simpa [createDefaultResponse] using h
  · rw [hc] at h
    right
    have hmem2 : r ∈ allMonthData store a b :=
      (List.mem_filter.mp (mem_sortByTs.mp h)).1
    refine ⟨mem_allMonthData hmem2, ?_⟩
    unfold validateDataStructure at hv
    rw [List.all_eq_true] at hv
    exact hv r hmem2

/-- Every record returned by the storage range query has a parseable
timestamp (the default row is canonical; stored rows passed validation). -/
theorem storageGCB_parseable (store : Store) (a b now : PyDateTime)
    (hnow : now.validB = true) :
    ∀ r ∈ storageGetCountsBetween store a b now,
      (fromisoformat r.timestamp).isSome = true := by
  intro r h
  rcases storageGCB_mem store a b now h with rfl | ⟨-, hp⟩
  · rw [show (⟨isoformat now, 0, 0, 0⟩ : CountRecord).timestamp = isoformat now from rfl,
      fromisoformat_isoformat now hnow]
    rfl
  · exact hp

/-- A store whose records all carry naive timestamps, as the system writes
them (`datetime.now().isoformat()` is naive). -/
def NaiveStore (store : Store) : Prop :=
  ∀ k : String, ∀ r ∈ store k, ∀ pdt, fromisoformat r.timestamp = some pdt → pdt.tz = none

/-- The storage range query result has uniform timezone-naivety: it is either
the default singleton or drawn entirely from a naive store. -/
theorem storageGCB_uniform (store : Store) (a b now : PyDateTime)
    (hnaive : NaiveStore store) (hnow : now.validB = true) :
    ∃ θ : Bool, ∀ r ∈ storageGetCountsBetween store a b now, ∀ pdt,
      fromisoformat r.timestamp = some pdt → pdt.tz.isSome = θ := by
  rcases storageGCB_cases store a b now with hc | ⟨hc, -⟩
  · refine ⟨now.tz.isSome, ?_⟩
    intro r hr pdt hp
    rw [hc] at hr
    simp only [createDefaultResponse, List.mem_singleton] at hr
    subst hr
    have h2 := (fromisoformat_isoformat now hnow).symm.trans hp
    injection h2 with h3
    rw [← h3]
  · refine ⟨false, ?_⟩
    intro r hr pdt hp
    rw [hc] at hr
    have hmem2 : r ∈ allMonthData store a b :=
      (List.mem_filter.mp (mem_sortByTs.mp hr)).1
    obtain ⟨m, hm⟩ := mem_allMonthData hmem2
    rw [hnaive (filenameFor m) r hm pdt hp]
    rfl

/-- With parseable, uniformly-naive records the walk never raises and emits
at least one row. -/
theorem aggLoop_ne_nil (w : Int) (l : List CountRecord) :
    ∀ (start : PyDateTime) (group : List CountRecord),
      (∀ r ∈ l, ∃ pdt, fromisoformat r.timestamp = some pdt ∧
        pdt.tz.isSome = start.tz.isSome) →
      (group ≠ [] ∨ l ≠ []) →
      ∃ out, aggLoop w start group l = some out ∧ out ≠ [] := by
  induction l with
  | nil =>
    intro start group h hne
    rcases hne with hg | hl
    · refine ⟨[emitGroup start group], ?_, by simp⟩
      simp only [aggLoop]
      rw [if_neg (fun hc => hg (List.isEmpty_iff.mp hc))]
    · exact absurd rfl hl
  | cons p rest ih =>
    intro start group h hne
    obtain ⟨pdt, hp, htz⟩ := h p (by simp)
    have htail : ∀ r ∈ rest, ∃ q, fromisoformat r.timestamp = some q ∧
        q.tz.isSome = start.tz.isSome := fun r hr => h r (by simp [hr])
    cases hlt : decide (dtToAbsMicro pdt < dtToAbsMicro start + w) with
    | true =>
      obtain ⟨out, hout, houtne⟩ := ih start (group ++ [p]) htail (Or.inl (by simp))
      refine ⟨out, ?_, houtne⟩
      simp only [aggLoop, hp]
      unfold ltShifted
      rw [if_pos htz, hlt]
      exact hout
    | false =>
      have hrest : ∀ r ∈ rest, ∃ q, fromisoformat r.timestamp = some q ∧
          q.tz.isSome = pdt.tz.isSome := by
        intro r hr
        obtain ⟨q, h1, h2⟩ := htail r hr
        exact ⟨q, h1, h2.trans htz.symm⟩
      obtain ⟨tail, htail2, htailne⟩ := ih pdt [p] hrest (Or.inl (by simp))
      refine ⟨(if group.isEmpty then [] else [emitGroup start group]) ++ tail,
        ?_, fun hc => htailne (List.append_eq_nil.mp hc).2⟩
      simp only [aggLoop, hp]
      unfold ltShifted
      rw [if_pos htz, hlt, htail2]

/-- Aggregating a nonempty sequence of parseable, uniformly-naive records
yields a nonempty sequence. -/
theorem aggregateData_ne_nil (l : List CountRecord) (w : Nat) (hl : l ≠ [])
    (hparse : ∀ r ∈ l, (fromisoformat r.timestamp).isSome = true)
    (huni : ∃ θ, ∀ r ∈ l, ∀ pdt, fromisoformat r.timestamp = some pdt →
      pdt.tz.isSome = θ) :
    aggregateData l w ≠ [] := by
  obtain ⟨θ, hθ⟩ := huni
  unfold aggregateData
  rw [if_neg (fun hc => hl (List.isEmpty_iff.mp hc))]
  rcases hs : sortByTs l with _ | ⟨first, rest⟩
  · exact absurd hs (sortByTs_ne_nil hl)
  · have hfirstmem : first ∈ l := mem_sortByTs.mp (by rw [hs]; simp)
    rcases hfp2 : fromisoformat first.timestamp with _ | fdt
    · have := hparse first hfirstmem
      rw [hfp2] at this
      exact absurd this (by simp)
    · have hfθ := hθ first hfirstmem fdt hfp2
      have hallrest : ∀ r ∈ first :: rest, ∃ q, fromisoformat r.timestamp = some q ∧
          q.tz.isSome = fdt.tz.isSome := by
        intro r hr
        have hrl : r ∈ l := mem_sortByTs.mp (by rw [hs]; exact hr)
        have hps := hparse r hrl
        rcases hq : fromisoformat r.timestamp with _ | q
        · rw [hq] at hps
          exact absurd hps (by simp)
        · exact ⟨q, rfl, (hθ r hrl q hq).trans hfθ.symm⟩
      obtain ⟨out, hout, houtne⟩ := aggLoop_ne_nil ((w : Int) * 3600000000)
        (first :: rest) fdt [] hallrest (Or.inr (by simp))
      simp only [hfp2, hout, Option.getD_some]
      exact houtne

/-- Aggregating the single default row reproduces it (its timestamp is
canonical and its counts average to zero). -/
theorem aggregateData_default (now : PyDateTime) (hnow : now.validB = true)
    (w : Nat) (hw : 0 < w) :
    aggregateData (createDefaultResponse now) w = createDefaultResponse now := by
  unfold aggregateData createDefaultResponse
  rw [if_neg (by simp)]
  have hlt : dtToAbsMicro now < dtToAbsMicro now + (w : Int) * 3600000000 := by
    have hww : (1 : Int) ≤ (w : Int) := by exact_mod_cast hw
    nlinarith
  have hsingle : ∀ r ∈ [(⟨isoformat now, 0, 0, 0⟩ : CountRecord)],
      ∃ pdt, fromisoformat r.timestamp = some pdt ∧
        pdt.tz.isSome = now.tz.isSome ∧
        dtToAbsMicro pdt < dtToAbsMicro now + (w : Int) * 3600000000 := by
    intro r hr
    rw [List.mem_singleton] at hr
    subst hr
    exact ⟨now, fromisoformat_isoformat now hnow, rfl, hlt⟩
  have hsort : sortByTs [(⟨isoformat now, 0, 0, 0⟩ : CountRecord)] =
      [⟨isoformat now, 0, 0, 0⟩] := rfl
  rw [hsort]
  simp only [fromisoformat_isoformat now hnow]
  rw [aggLoop_all ((w : Int) * 3600000000) now [(⟨isoformat now, 0, 0, 0⟩ : CountRecord)]
    [] hsingle]
  simp only [List.nil_append, List.isEmpty_cons, Option.getD_some]
  show [emitGroup now [⟨isoformat now, 0, 0, 0⟩]] = [⟨isoformat now, 0, 0, 0⟩]
  unfold emitGroup
  simp [show pyRoundMean 0 1 = 0 from by decide]

/-- The range read never yields an empty sequence (over a naive store with a
valid current time). -/
theorem dbGCB_ne_nil (store : Store) (a b now : PyDateTime)
    (hnaive : NaiveStore store) (hnow : now.validB = true) :
    dbGetCountsBetween store a b now ≠ [] := by
  unfold dbGetCountsBetween
  rcases hsub : dtSubMicro b a with _ | diff
  · simp [createDefaultResponse]
  · dsimp only
    rw [if_neg (fun hc =>
      storageGetCountsBetween_ne_nil store a b now (List.isEmpty_iff.mp hc))]
    apply sortByTs_ne_nil
    have hp := storageGCB_parseable store a b now hnow
    have hu := storageGCB_uniform store a b now hnaive hnow
    have hne := storageGetCountsBetween_ne_nil store a b now
    split
    · exact aggregateData_ne_nil _ 6 hne hp hu
    · split
      · exact aggregateData_ne_nil _ 2 hne hp hu
      · split
        · exact aggregateData_ne_nil _ 1 hne hp hu
        · exact hne

/-- When the storage layer substitutes the default response (no stored record
matched), the database layer hands exactly that single default row to the
caller, through any aggregation branch. -/
theorem dbGCB_default (store : Store) (a b now : PyDateTime)
    (hnow : now.validB = true)
    (h : storageGetCountsBetween store a b now = createDefaultResponse now) :
    dbGetCountsBetween store a b now = createDefaultResponse now := by
  unfold dbGetCountsBetween
  rcases hsub : dtSubMicro b a with _ | diff
  · rfl
  · dsimp only
    rw [h, if_neg (by simp [createDefaultResponse])]
    split
    · rw [aggregateData_default now hnow 6 (by omega)]
      rfl
    · split
      · rw [aggregateData_default now hnow 2 (by omega)]
        rfl
      · split
        · rw [aggregateData_default now hnow 1 (by omega)]
          rfl
        · rfl

/-- C7: every read path ends in at least one well-formed record — an empty
current-month partition makes `latest` return the default row stamped `now`;
the range query never returns an empty sequence; when no stored record
matched the range the caller receives exactly the single default row (which
survives aggregation untouched); and an empty page slice is replaced by the
default response, so the paginated query is also never empty.  (The
pagination leg is modelled from the spec, §4.5/§4.6; the rest is from
`src/storage.py` and `src/database.py`.) -/
theorem spec_C7_default_response (store : Store) (a b now : PyDateTime)
    (hnaive : NaiveStore store) (hnow : now.validB = true) (page perPage : Nat) :
    (store (filenameFor (monthStr now)) = [] →
      dbGetLatest store now = ⟨isoformat now, 0, 0, 0⟩) ∧
    dbGetCountsBetween store a b now ≠ [] ∧
    (storageGetCountsBetween store a b now = createDefaultResponse now →
      dbGetCountsBetween store a b now = createDefaultResponse now) ∧
    (paginate (dbGetCountsBetween store a b now) page perPage = [] →
      queryRangePaginated store a b now page perPage = createDefaultResponse now) ∧
    queryRangePaginated store a b now page perPage ≠ [] := by
  refine ⟨?_, dbGCB_ne_nil store a b now hnaive hnow,
    dbGCB_default store a b now hnow, ?_, ?_⟩
  · intro h
    unfold dbGetLatest storageGetLatest
    rw [h]
    rfl
  · intro h
    unfold queryRangePaginated
    rw [h]
    rfl
  · unfold queryRangePaginated
    dsimp only
    split
    · simp [createDefaultResponse]
    · next hq => simpa [List.isEmpty_iff] using hq

/-- The witness store carries only naive timestamps. -/
theorem sampleStore_naive : NaiveStore sampleStore := by
  intro k r hr pdt hp
  unfold sampleStore at hr
  split at hr
  · rcases (by simpa using hr :
      r = (⟨"2024-01-01T00:00:00", 1, 2, 3⟩ : CountRecord) ∨
      r = (⟨"2024-01-31T23:45:00", 4, 5, 6⟩ : CountRecord)) with rfl | rfl
    · have h2 := (show fromisoformat "2024-01-01T00:00:00" =
        some ⟨2024, 1, 1, 0, 0, 0, 0, none⟩ from by decide).symm.trans hp
      injection h2 with h3
      rw [← h3]
    · have h2 := (show fromisoformat "2024-01-31T23:45:00" =
        some ⟨2024, 1, 31, 23, 45, 0, 0, none⟩ from by decide).symm.trans hp
      injection h2 with h3
      rw [← h3]
  · simp at hr

/-- Witness for C7 at a concrete store, range and current time. -/
theorem spec_C7_default_response_witness :
    (sampleStore (filenameFor (monthStr ⟨2024, 3, 1, 12, 0, 0, 0, none⟩)) = [] →
      dbGetLatest sampleStore ⟨2024, 3, 1, 12, 0, 0, 0, none⟩ =
        ⟨isoformat ⟨2024, 3, 1, 12, 0, 0, 0, none⟩, 0, 0, 0⟩) ∧
    dbGetCountsBetween sampleStore ⟨2024, 1, 1, 0, 0, 0, 0, none⟩
      ⟨2024, 1, 1, 12, 0, 0, 0, none⟩ ⟨2024, 3, 1, 12, 0, 0, 0, none⟩ ≠ [] ∧
    (storageGetCountsBetween sampleStore ⟨2024, 1, 1, 0, 0, 0, 0, none⟩
        ⟨2024, 1, 1, 12, 0, 0, 0, none⟩ ⟨2024, 3, 1, 12, 0, 0, 0, none⟩ =
        createDefaultResponse ⟨2024, 3, 1, 12, 0, 0, 0, none⟩ →
      dbGetCountsBetween sampleStore ⟨2024, 1, 1, 0, 0, 0, 0, none⟩
        ⟨2024, 1, 1, 12, 0, 0, 0, none⟩ ⟨2024, 3, 1, 12, 0, 0, 0, none⟩ =
        createDefaultResponse ⟨2024, 3, 1, 12, 0, 0, 0, none⟩) ∧
    (paginate (dbGetCountsBetween sampleStore ⟨2024, 1, 1, 0, 0, 0, 0, none⟩
        ⟨2024, 1, 1, 12, 0, 0, 0, none⟩ ⟨2024, 3, 1, 12, 0, 0, 0, none⟩) 7 3 = [] →
      queryRangePaginated sampleStore ⟨2024, 1, 1, 0, 0, 0, 0, none⟩
        ⟨2024, 1, 1, 12, 0, 0, 0, none⟩ ⟨2024, 3, 1, 12, 0, 0, 0, none⟩ 7 3 =
        createDefaultResponse ⟨2024, 3, 1, 12, 0, 0, 0, none⟩) ∧
    queryRangePaginated sampleStore ⟨2024, 1, 1, 0, 0, 0, 0, none⟩
      ⟨2024, 1, 1, 12, 0, 0, 0, none⟩ ⟨2024, 3, 1, 12, 0, 0, 0, none⟩ 7 3 ≠ [] :=
  spec_C7_default_response sampleStore ⟨2024, 1, 1, 0, 0, 0, 0, none⟩
    ⟨2024, 1, 1, 12, 0, 0, 0, none⟩ ⟨2024, 3, 1, 12, 0, 0, 0, none⟩
    sampleStore_naive (by decide) 7 3

end Flood
